import Mathlib

/-!
Verification of the AI gateway worker (`worker/src/index.ts`).

The development shallowly embeds the worker's pure logic:

* the access-password policy (`validateAccessPassword`),
* the message normalizer for the Anthropic provider
  (`convertContentPartsToAnthropic`, system-message extraction),
* the non-streaming reply extraction of `callOpenAI` / `callAnthropic`,
* the SSE stream translators of `streamOpenAI` / `streamAnthropic`
  (line buffering, `data: ` framing, `[DONE]` sentinel, per-line JSON
  parsing and fragment extraction),
* the router's method/path dispatch.

Upstream byte chunks are modelled as lists of characters: the source
decodes bytes with a streaming `TextDecoder`, which is transparent to
chunk boundaries, so the character level is the faithful granularity.
JavaScript `JSON.parse` is embedded as an executable fueled
recursive-descent parser over a JSON value type, and the worker's
property accesses (`parsed.choices?.[0]?.delta?.content`,
`data.choices[0]?.message?.content`, ...) are embedded with
JavaScript's member-access semantics (`undefined` as `Option.none`,
`TypeError` on access through `null`/`undefined`, optional chaining
short-circuits, truthiness tests).
-/

/-- JSON values, the result type of the embedded `JSON.parse`. -/
inductive Json where
  | null : Json
  | bool (b : Bool) : Json
  | num (q : Rat) : Json
  | str (s : String) : Json
  | arr (elems : List Json) : Json
  | obj (fields : List (String × Json)) : Json

/-- Whitespace accepted between JSON tokens by `JSON.parse`. -/
def isJsonWs (c : Char) : Bool :=
  c = ' ' || c = '\t' || c = '\n' || c = '\r'

/-- Skip insignificant whitespace. -/
def skipWs (cs : List Char) : List Char := cs.dropWhile isJsonWs

/-- Value of a hexadecimal digit. -/
def hexVal (c : Char) : Option Nat :=
  if '0' ≤ c ∧ c ≤ '9' then some (c.toNat - 48)
  else if 'a' ≤ c ∧ c ≤ 'f' then some (c.toNat - 87)
  else if 'A' ≤ c ∧ c ≤ 'F' then some (c.toNat - 55)
  else none

/-- Parse the body of a JSON string (the part after the opening quote),
returning the decoded characters and the rest of the input. Escapes
follow the JSON grammar; unescaped control characters are rejected,
exactly as `JSON.parse` does. -/
def parseStringBody : Nat → List Char → Option (List Char × List Char)
  | 0, _ => none
  | _ + 1, [] => none
  | fuel + 1, c :: rest =>
    if c = '"' then some ([], rest)
    else if c = '\\' then
      match rest with
      | [] => none
      | e :: rest2 =>
        if e = '"' then (parseStringBody fuel rest2).map (fun p => ('"' :: p.1, p.2))
        else if e = '\\' then (parseStringBody fuel rest2).map (fun p => ('\\' :: p.1, p.2))
        else if e = '/' then (parseStringBody fuel rest2).map (fun p => ('/' :: p.1, p.2))
        else if e = 'b' then (parseStringBody fuel rest2).map (fun p => (Char.ofNat 8 :: p.1, p.2))
        else if e = 'f' then (parseStringBody fuel rest2).map (fun p => (Char.ofNat 12 :: p.1, p.2))
        else if e = 'n' then (parseStringBody fuel rest2).map (fun p => ('\n' :: p.1, p.2))
        else if e = 'r' then (parseStringBody fuel rest2).map (fun p => ('\r' :: p.1, p.2))
        else if e = 't' then (parseStringBody fuel rest2).map (fun p => ('\t' :: p.1, p.2))
        else if e = 'u' then
          match rest2 with
          | h1 :: h2 :: h3 :: h4 :: rest3 =>
            match hexVal h1, hexVal h2, hexVal h3, hexVal h4 with
            | some a, some b, some c2, some d =>
              (parseStringBody fuel rest3).map
                (fun p => (Char.ofNat (((a * 16 + b) * 16 + c2) * 16 + d) :: p.1, p.2))
            | _, _, _, _ => none
          | _ => none
        else none
    else if c.toNat < 32 then none
    else (parseStringBody fuel rest).map (fun p => (c :: p.1, p.2))

/-- Numeric value of a list of decimal digit characters. -/
def digitsVal (ds : List Char) : Nat :=
  ds.foldl (fun a c => a * 10 + (c.toNat - 48)) 0

/-- Parse an optional JSON fraction part (`.` followed by digits). -/
def parseFrac : List Char → Option (List Char × List Char)
  | '.' :: r =>
    let ds := r.takeWhile Char.isDigit
    if ds.isEmpty then none else some (ds, r.dropWhile Char.isDigit)
  | cs => some ([], cs)

/-- Parse an optional JSON exponent part. -/
def parseExp : List Char → Option (Int × List Char)
  | [] => some (0, [])
  | c :: r =>
    if c = 'e' ∨ c = 'E' then
      let signAndRest : Int × List Char :=
        match r with
        | '+' :: t => (1, t)
        | '-' :: t => (-1, t)
        | _ => (1, r)
      let ds := signAndRest.2.takeWhile Char.isDigit
      if ds.isEmpty then none
      else some (signAndRest.1 * (digitsVal ds : Int), signAndRest.2.dropWhile Char.isDigit)
    else some (0, c :: r)

/-- Rational value of a parsed JSON number. -/
def ratOfParts (neg : Bool) (intDs fracDs : List Char) (e : Int) : Rat :=
  let mant : Int := (digitsVal (intDs ++ fracDs) : Int)
  let mant : Int := if neg then -mant else mant
  let e2 : Int := e - fracDs.length
  if 0 ≤ e2 then ((mant * (10 : Int) ^ e2.toNat : Int) : Rat)
  else (mant : Rat) / (((10 : Nat) ^ (-e2).toNat : Nat) : Rat)

/-- Parse a JSON number per the JSON grammar (no leading zeros,
optional fraction and exponent). -/
def parseNumber (cs : List Char) : Option (Rat × List Char) :=
  let signAndRest : Bool × List Char :=
    match cs with
    | '-' :: r => (true, r)
    | _ => (false, cs)
  let cs1 := signAndRest.2
  let intDs := cs1.takeWhile Char.isDigit
  let rest1 := cs1.dropWhile Char.isDigit
  if intDs.isEmpty then none
  else if 1 < intDs.length ∧ intDs.head? = some '0' then none
  else
    match parseFrac rest1 with
    | none => none
    | some (fracDs, rest2) =>
      match parseExp rest2 with
      | none => none
      | some (e, rest3) => some (ratOfParts signAndRest.1 intDs fracDs e, rest3)

/-- Parser task selector: a whole value, the members of an object
(at least one, after `{`), or the elements of an array (at least one,
after `[`). -/
inductive ParseTask where
  | value : ParseTask
  | objMust : ParseTask
  | arrMust : ParseTask

/-- Fueled recursive-descent JSON parser. `objMust`/`arrMust` return the
 remaining members wrapped as `Json.obj`/`Json.arr`. Duplicate object
 keys are kept in order; lookup takes the last one, as `JSON.parse`'s
 last-wins semantics requires. -/
def parseJ : Nat → ParseTask → List Char → Option (Json × List Char)
  | 0, _, _ => none
  | fuel + 1, ParseTask.value, cs =>
    match skipWs cs with
    | '{' :: rest =>
      (match skipWs rest with
       | '}' :: r2 => some (Json.obj [], r2)
       | _ => parseJ fuel ParseTask.objMust rest)
    | '[' :: rest =>
      (match skipWs rest with
       | ']' :: r2 => some (Json.arr [], r2)
       | _ => parseJ fuel ParseTask.arrMust rest)
    | '"' :: rest => (parseStringBody fuel rest).map (fun p => (Json.str (String.mk p.1), p.2))
    | 't' :: 'r' :: 'u' :: 'e' :: rest => some (Json.bool true, rest)
    | 'f' :: 'a' :: 'l' :: 's' :: 'e' :: rest => some (Json.bool false, rest)
    | 'n' :: 'u' :: 'l' :: 'l' :: rest => some (Json.null, rest)
    | other => (parseNumber other).map (fun p => (Json.num p.1, p.2))
  | fuel + 1, ParseTask.objMust, cs =>
    match skipWs cs with
    | '"' :: rest =>
      (match parseStringBody fuel rest with
       | none => none
       | some (key, r2) =>
         match skipWs r2 with
         | ':' :: r3 =>
           (match parseJ fuel ParseTask.value r3 with
            | none => none
            | some (v, r4) =>
              match skipWs r4 with
              | ',' :: r5 =>
                (match parseJ fuel ParseTask.objMust r5 with
                 | some (Json.obj ms, r6) => some (Json.obj ((String.mk key, v) :: ms), r6)
                 | _ => none)
              | '}' :: r5 => some (Json.obj [(String.mk key, v)], r5)
              | _ => none)
         | _ => none)
    | _ => none
  | fuel + 1, ParseTask.arrMust, cs =>
    match parseJ fuel ParseTask.value cs with
    | none => none
    | some (v, r) =>
      match skipWs r with
      | ',' :: r2 =>
        (match parseJ fuel ParseTask.arrMust r2 with
         | some (Json.arr xs, r3) => some (Json.arr (v :: xs), r3)
         | _ => none)
      | ']' :: r2 => some (Json.arr [v], r2)
      | _ => none

/-- Embedded `JSON.parse`: parse a full JSON document, rejecting
trailing garbage. `none` models a thrown `SyntaxError`. -/
def jsonParse (cs : List Char) : Option Json :=
  match parseJ (2 * cs.length + 4) ParseTask.value cs with
  | some (j, rest) => if (skipWs rest).isEmpty then some j else none
  | none => none

/-- Last-wins lookup of an object key, matching `JSON.parse`'s
duplicate-key semantics combined with plain property access. -/
def lookupLast (fs : List (String × Json)) (k : String) : Option Json :=
  fs.foldl (fun acc kv => if kv.1 = k then some kv.2 else acc) none

/-- JavaScript nullish test (`null` or `undefined`); `Option.none`
models `undefined`. -/
def jsNullish : Option Json → Bool
  | none => true
  | some Json.null => true
  | some _ => false

/-- JavaScript truthiness of a JSON value. -/
def jsTruthy : Json → Bool
  | Json.null => false
  | Json.bool b => b
  | Json.num q => !(q == 0)
  | Json.str s => !(s == "")
  | Json.arr _ => true
  | Json.obj _ => true

/-- JavaScript property access `v.k`: a `TypeError` (modelled as
`Except.error`) on `null`/`undefined`, key lookup on objects,
`undefined` on other primitives (none of the worker's keys exist on
arrays, strings, numbers or booleans). -/
def jsProp : Option Json → String → Except String (Option Json)
  | none, _ => Except.error "TypeError"
  | some Json.null, _ => Except.error "TypeError"
  | some (Json.obj fs), k => Except.ok (lookupLast fs k)
  | some _, _ => Except.ok none

/-- JavaScript numeric index access `v[i]`: `TypeError` on
`null`/`undefined`, element access on arrays, single-character strings
on strings, `"i"`-keyed lookup on objects. -/
def jsIndex : Option Json → Nat → Except String (Option Json)
  | none, _ => Except.error "TypeError"
  | some Json.null, _ => Except.error "TypeError"
  | some (Json.arr xs), i => Except.ok (xs.get? i)
  | some (Json.obj fs), i => Except.ok (lookupLast fs (toString i))
  | some (Json.str s), i => Except.ok ((s.data.get? i).map (fun c => Json.str (String.mk [c])))
  | some _, _ => Except.ok none

/-- `streamOpenAI`'s per-line accessor
`parsed.choices?.[0]?.delta?.content` with optional-chaining
short-circuits. -/
def openAIExtract (j : Json) : Except String (Option Json) := do
  let c ← jsProp (some j) "choices"
  if jsNullish c then pure none
  else do
    let e0 ← jsIndex c 0
    if jsNullish e0 then pure none
    else do
      let d ← jsProp e0 "delta"
      if jsNullish d then pure none
      else jsProp d "content"

/-- `streamAnthropic`'s per-line accessor: the written fragment is
`parsed.delta.text`, guarded by
`parsed.type === 'content_block_delta' && parsed.delta?.text`. -/
def anthropicExtract (j : Json) : Except String (Option Json) := do
  let t ← jsProp (some j) "type"
  match t with
  | some (Json.str ty) =>
    if ty = "content_block_delta" then do
      let d ← jsProp (some j) "delta"
      if jsNullish d then pure none
      else jsProp d "text"
    else pure none
  | _ => pure none

/-- Canonical downstream events: a `data: {"content": v}` line or the
`data: [DONE]` sentinel line. -/
inductive Event where
  | content (v : Json) : Event
  | done : Event

/-- Detect the `done` constructor. -/
def isDoneEvent : Event → Bool
  | Event.done => true
  | _ => false

/-- Count of `[DONE]` sentinels in a canonical event sequence. -/
def countDone (evs : List Event) : Nat := evs.countP isDoneEvent

/-- Characters trimmed by JavaScript `String.prototype.trim` (the
ASCII/latin-1 subset that can occur on an SSE line). -/
def isJsTrimmable (c : Char) : Bool :=
  c = ' ' || c = '\t' || c = '\n' || c = '\r' || c = '\x0B' || c = '\x0C' ||
  c = '\u00A0' || c = '\uFEFF'

/-- Embedded `line.trim()`. -/
def trimChars (l : List Char) : List Char :=
  ((l.dropWhile isJsTrimmable).reverse.dropWhile isJsTrimmable).reverse

/-- One iteration of the translators' inner `for (const line of lines)`
loop body: trim, skip blank and non-`data: ` lines, forward the
`[DONE]` sentinel, otherwise `JSON.parse` the payload (silently
dropping the line on failure or on a thrown property access) and emit
`{content}` when the extracted fragment is truthy. The
provider-specific accessor is the `extract` parameter. -/
def processLine (extract : Json → Except String (Option Json)) (line : List Char) : List Event :=
  let t := trimChars line
  if t.isEmpty then []
  else if ¬ t.take 6 = "data: ".data then []
  else
    let dat := t.drop 6
    if dat = "[DONE]".data then [Event.done]
    else
      match jsonParse dat with
      | none => []
      | some j =>
        match extract j with
        | Except.error _ => []
        | Except.ok none => []
        | Except.ok (some v) => if jsTruthy v then [Event.content v] else []

/-- Embedded `buffer.split('\n')` with the final fragment held back:
returns the complete lines and the trailing not-yet-terminated
fragment (`buffer = lines.pop() || ''`). -/
def splitP : List Char → List (List Char) × List Char
  | [] => ([], [])
  | c :: rest =>
    let p := splitP rest
    if c = '\n' then ([] :: p.1, p.2)
    else
      match p.1 with
      | [] => ([], c :: p.2)
      | l :: ls => ((c :: l) :: ls, p.2)

/-- The translators' chunk loop: carry the line buffer across chunks,
process every complete line of `buffer + chunk`, hold back the rest. -/
def runAux (extract : Json → Except String (Option Json)) :
    List Char → List (List Char) → List Event
  | _, [] => []
  | buf, ch :: rest =>
    ((splitP (buf ++ ch)).1).flatMap (processLine extract) ++
      runAux extract (splitP (buf ++ ch)).2 rest

/-- Full run of a stream translator over a list of upstream chunks,
starting from an empty buffer; an incomplete trailing line is
discarded at end-of-stream, as in the source. -/
def runTranslator (extract : Json → Except String (Option Json))
    (chunks : List (List Char)) : List Event :=
  runAux extract [] chunks

/-- Translation of a list of already-assembled upstream lines. -/
def translateLines (extract : Json → Except String (Option Json))
    (ls : List String) : List Event :=
  ls.flatMap (fun l => processLine extract l.data)

/-- A line that the translators recognise as the upstream `[DONE]`
sentinel. -/
def isSentinelLine (l : String) : Bool :=
  let t := trimChars l.data
  decide (t.take 6 = "data: ".data) && decide (t.drop 6 = "[DONE]".data)

/-- A `data: ` line whose payload is neither the sentinel nor valid
JSON — the "malformed line" case of the spec. -/
def isMalformedDataLine (l : String) : Bool :=
  let t := trimChars l.data
  decide (t.take 6 = "data: ".data) && !(decide (t.drop 6 = "[DONE]".data)) &&
    (jsonParse (t.drop 6)).isNone

/-- JavaScript truthiness of an optional string (`undefined` and `''`
are falsy), as used on `env.ACCESS_PASSWORD` and the
`X-Access-Password` header value. -/
def strTruthy : Option String → Bool
  | none => false
  | some s => !(s == "")

/-- `validateAccessPassword`: `password` is the request's
`X-Access-Password` header (`none` when the header is absent),
`configuredPassword` is `env.ACCESS_PASSWORD` (`none` when the binding
is unset). Returns `(valid, exempt)`. -/
def validateAccessPassword (password configuredPassword : Option String) : Bool × Bool :=
  if !(strTruthy configuredPassword) then (true, false)
  else if strTruthy password then
    (if password = configuredPassword then (true, true) else (false, false))
  else (true, false)

/-- Inbound multi-modal content part (`ContentPart` in the source):
the optional fields model absent `text` / absent `image_url.url`. -/
inductive ContentPart where
  | text (text : Option String) : ContentPart
  | image_url (url : Option String) : ContentPart
deriving DecidableEq

/-- Outgoing Anthropic content block (`AnthropicContentPart`). -/
inductive AnthropicContentPart where
  | text (text : String) : AnthropicContentPart
  | image (media_type : String) (data : String) : AnthropicContentPart
deriving DecidableEq

/-- Embedded match of `/^data:(image\/[^;]+);base64,(.+)$/` against a
URL: media type `image/` followed by at least one non-`;` character
(the `[^;]` class does match line terminators), then `;base64,`, then
the capture `(.+)$`: without the `m` flag, JavaScript's `$` asserts
the very end of the input — there is no before-final-newline
exception — so the payload is the entire remainder of the URL, must be
non-empty, and must contain no line terminator, since `.` excludes
`\n`, `\r`, U+2028 and U+2029. Returns the two capture groups. -/
def dataUriMatch (url : String) : Option (String × String) :=
  let cs := url.data
  if cs.take 11 = "data:image/".data then
    let rest := cs.drop 11
    let m := rest.takeWhile (fun c => ¬ c = ';')
    let rest2 := rest.drop m.length
    if m.isEmpty then none
    else if rest2.take 8 = ";base64,".data then
      let d := rest2.drop 8
      if d.isEmpty ∨
          d.any (fun c => c = '\n' ∨ c = '\r' ∨ c = '\u2028' ∨ c = '\u2029') then none
      else some (String.mk ("image/".data ++ m), String.mk d)
    else none
  else none

/-- Modelled from the spec: the spec's phrase "a base64 `data:` URI"
(`data:<media_type>;base64,<data>`), with no restriction of the media
type to images. Used only to compare the spec's wording against the
source's `dataUriMatch`. -/
def specBase64DataUriParts (url : String) : Option (String × String) :=
  let cs := url.data
  if cs.take 5 = "data:".data then
    let rest := cs.drop 5
    let m := rest.takeWhile (fun c => ¬ c = ';')
    let rest2 := rest.drop m.length
    if ¬ m.isEmpty ∧ rest2.take 8 = ";base64,".data ∧ ¬ (rest2.drop 8).isEmpty then
      some (String.mk m, String.mk (rest2.drop 8))
    else none
  else none

/-- The filter applied at the end of `convertContentPartsToAnthropic`:
`part.type === 'image' || (part.type === 'text' && part.text)`. -/
def anthropicKeep : AnthropicContentPart → Bool
  | AnthropicContentPart.image _ _ => true
  | AnthropicContentPart.text t => !(t == "")

/-- Per-part mapping inside `convertContentPartsToAnthropic`. -/
def anthropicPartOf : ContentPart → AnthropicContentPart
  | ContentPart.text t => AnthropicContentPart.text (t.getD "")
  | ContentPart.image_url u =>
    match u with
    | some url =>
      if url = "" then AnthropicContentPart.text ""
      else
        match dataUriMatch url with
        | some (m, d) => AnthropicContentPart.image m d
        | none => AnthropicContentPart.text ("[Image URL: " ++ url ++ "]")
    | none => AnthropicContentPart.text ""

/-- `convertContentPartsToAnthropic`: map each part, then filter out
empty text blocks. -/
def convertContentPartsToAnthropic (parts : List ContentPart) : List AnthropicContentPart :=
  (parts.map anthropicPartOf).filter anthropicKeep

/-- Message roles. -/
inductive Role where
  | system : Role
  | user : Role
  | assistant : Role
deriving DecidableEq

/-- Inbound message content: a plain string or a part list. -/
inductive MContent where
  | str (s : String) : MContent
  | parts (ps : List ContentPart) : MContent
deriving DecidableEq

/-- Inbound message. -/
structure Message where
  role : Role
  content : MContent
deriving DecidableEq

/-- Outgoing Anthropic message content. -/
inductive AnthMContent where
  | str (s : String) : AnthMContent
  | parts (ps : List AnthropicContentPart) : AnthMContent
deriving DecidableEq

/-- Outgoing Anthropic message. -/
structure AnthMessage where
  role : Role
  content : AnthMContent
deriving DecidableEq

/-- Per-message conversion used by `callAnthropic` and
`streamAnthropic`: string content passes through, part lists go
through `convertContentPartsToAnthropic`. -/
def toAnthMessage (m : Message) : AnthMessage :=
  { role := m.role,
    content :=
      match m.content with
      | MContent.str s => AnthMContent.str s
      | MContent.parts ps => AnthMContent.parts (convertContentPartsToAnthropic ps) }

/-- `messages.filter((m) => m.role !== 'system').map(...)` as built by
both Anthropic paths. -/
def anthropicMessagesOf (msgs : List Message) : List AnthMessage :=
  (msgs.filter (fun m => decide (¬ m.role = Role.system))).map toAnthMessage

/-- The `system` field of the Anthropic request body:
`typeof systemMessage?.content === 'string' ? systemMessage.content : ''`
where `systemMessage = messages.find((m) => m.role === 'system')`. -/
def anthropicSystemOf (msgs : List Message) : String :=
  match msgs.find? (fun m => decide (m.role = Role.system)) with
  | some m =>
    match m.content with
    | MContent.str s => s
    | MContent.parts _ => ""
  | none => ""

/-- The message-shaping part of the Anthropic request body (`system`,
`messages`, and the presence of the `stream` flag). -/
structure AnthropicRequestBody where
  system : String
  messages : List AnthMessage
  stream : Option Bool
deriving DecidableEq

/-- Body built by the non-streaming `callAnthropic` (no `stream`
field). -/
def callAnthropicBody (msgs : List Message) : AnthropicRequestBody :=
  { system := anthropicSystemOf msgs
    messages := anthropicMessagesOf msgs
    stream := none }

/-- Body built by `streamAnthropic` (`stream: true`). -/
def streamAnthropicBody (msgs : List Message) : AnthropicRequestBody :=
  { system := anthropicSystemOf msgs
    messages := anthropicMessagesOf msgs
    stream := some true }

/-- Abstract upstream HTTP response for the non-streaming calls:
`ok` is `response.ok` (2xx) and `body` is the response text
(`response.json()` parses the same text). -/
structure UpstreamResponse where
  ok : Bool
  body : String
deriving DecidableEq

/-- `callOpenAI`'s reply accessor `data.choices[0]?.message?.content`:
`data.choices` is not optional-chained, so a missing or `null`
`choices` throws a `TypeError`. -/
def openAIRespContent (data : Json) : Except String (Option Json) := do
  let c ← jsProp (some data) "choices"
  let e0 ← jsIndex c 0
  if jsNullish e0 then pure none
  else do
    let m ← jsProp e0 "message"
    if jsNullish m then pure none
    else jsProp m "content"

/-- `callAnthropic`'s reply accessor `data.content[0]?.text`:
`data.content` is not optional-chained. -/
def anthropicRespContent (data : Json) : Except String (Option Json) := do
  let c ← jsProp (some data) "content"
  let e0 ← jsIndex c 0
  if jsNullish e0 then pure none
  else jsProp e0 "text"

/-- `x || ''` on the extracted reply value. -/
def orEmptyString : Option Json → Json
  | some v => if jsTruthy v then v else Json.str ""
  | none => Json.str ""

/-- Non-streaming `callOpenAI` after the upstream `fetch` resolved:
non-2xx throws with the upstream body, then `response.json()`, then
extraction with `|| ''`. `Except.error` models a thrown error. -/
def callOpenAIResult (resp : UpstreamResponse) : Except String Json :=
  if !resp.ok then Except.error ("OpenAI API error: " ++ resp.body)
  else
    match jsonParse resp.body.data with
    | none => Except.error "SyntaxError"
    | some data =>
      match openAIRespContent data with
      | Except.error e => Except.error e
      | Except.ok v => Except.ok (orEmptyString v)

/-- Non-streaming `callAnthropic` after the upstream `fetch` resolved. -/
def callAnthropicResult (resp : UpstreamResponse) : Except String Json :=
  if !resp.ok then Except.error ("Anthropic API error: " ++ resp.body)
  else
    match jsonParse resp.body.data with
    | none => Except.error "SyntaxError"
    | some data =>
      match anthropicRespContent data with
      | Except.error e => Except.error e
      | Except.ok v => Except.ok (orEmptyString v)

/-- Outcome of the router's dispatch in `fetch`. -/
inductive GatewayRoute where
  | preflight : GatewayRoute
  | chatDispatch : GatewayRoute
  | parseUrlDispatch : GatewayRoute
  | healthOk : GatewayRoute
  | notFound : GatewayRoute
deriving DecidableEq

/-- The router's method/path dispatch, in source order: `OPTIONS`
preflight first, then `POST /api/chat`, then `POST /api/parse-url`,
then `/api/health` with no method check, then 404. -/
def routeRequest (method path : String) : GatewayRoute :=
  if method = "OPTIONS" then GatewayRoute.preflight
  else if path = "/api/chat" ∧ method = "POST" then GatewayRoute.chatDispatch
  else if path = "/api/parse-url" ∧ method = "POST" then GatewayRoute.parseUrlDispatch
  else if path = "/api/health" then GatewayRoute.healthOk
  else GatewayRoute.notFound

/-- HTTP status directly produced by a route (`none` for the chat and
parse-url handlers, whose status depends on the request body). -/
def routeStatus : GatewayRoute → Option Nat
  | GatewayRoute.preflight => some 200
  | GatewayRoute.healthOk => some 200
  | GatewayRoute.notFound => some 404
  | _ => none

/-- Abstract upstream OpenAI-shaped stream events: a delta carrying an
optional string content, or the `[DONE]` marker. -/
inductive UpstreamEvent where
  | delta (content : Option String) : UpstreamEvent
  | doneMark : UpstreamEvent

/-- `oaiRepresents l e`: the upstream SSE line `l` is OpenAI-shaped and
carries the event `e` — a `data: ` line whose JSON payload's
`choices[0].delta.content` is the string of `delta`, or absent for
`delta none`, or the sentinel line for `doneMark`. -/
def oaiRepresents (l : String) : UpstreamEvent → Bool
  | UpstreamEvent.doneMark => isSentinelLine l
  | UpstreamEvent.delta oc =>
    let t := trimChars l.data
    decide (t.take 6 = "data: ".data) &&
      (match jsonParse (t.drop 6) with
       | none => false
       | some j =>
         match openAIExtract j, oc with
         | Except.ok (some (Json.str s)), some c => decide (s = c)
         | Except.ok none, none => true
         | _, _ => false)

/-- Canonical output the spec prescribes for one upstream event: one
`{content}` event per non-empty string delta, nothing for empty or
absent content, the sentinel for `doneMark`. -/
def canonicalOf : UpstreamEvent → List Event
  | UpstreamEvent.doneMark => [Event.done]
  | UpstreamEvent.delta (some c) => if c = "" then [] else [Event.content (Json.str c)]
  | UpstreamEvent.delta none => []

/-- Pointwise lifting of `oaiRepresents` to whole streams. -/
def oaiStreamRep : List String → List UpstreamEvent → Bool
  | [], [] => true
  | l :: ls, e :: es => oaiRepresents l e && oaiStreamRep ls es
  | _, _ => false

section AccessPolicy

/-- Claim C1 (counterexample): with a configured secret `"secret"` and
a supplied empty-string credential — a supplied credential that does
not match the secret — the evaluator returns `(valid := true,
exempt := false)`, not the `(false, false)` the claim's case table
demands for a non-matching supplied credential. -/
theorem c1_counterexample :
    validateAccessPassword (some "") (some "secret") = (true, false) ∧
    ¬ (some "" : Option String) = some "secret" ∧
    ¬ ((true, false) : Bool × Bool) = (false, false) := by
  refine ⟨rfl, by decide, by decide⟩

/-- Claim C1 (amended): the case table holds once empty strings are
treated as absence — a configured secret means a non-empty configured
value, a supplied credential means a non-empty header value. Then: no
configured secret gives `(true, false)` whatever the credential; a
matching supplied credential gives `(true, true)`; a non-matching
supplied credential gives `(false, false)`; no supplied credential
gives `(true, false)`. -/
theorem c1_access_policy_amended (p cp : Option String) :
    (strTruthy cp = false → validateAccessPassword p cp = (true, false)) ∧
    (strTruthy cp = true → strTruthy p = true → p = cp →
      validateAccessPassword p cp = (true, true)) ∧
    (strTruthy cp = true → strTruthy p = true → ¬ p = cp →
      validateAccessPassword p cp = (false, false)) ∧
    (strTruthy cp = true → strTruthy p = false →
      validateAccessPassword p cp = (true, false)) := by
  refine ⟨?_, ?_, ?_, ?_⟩
  · intro h1
    simp [validateAccessPassword, h1]
  · intro h1 h2 h3
    simp [validateAccessPassword, h1, h2, h3]
  · intro h1 h2 h3
    simp [validateAccessPassword, h1, h2, h3]
  · intro h1 h2
    simp [validateAccessPassword, h1, h2]

/-- Witness for C1 (amended) at concrete inputs: a matching non-empty
credential is accepted and exempt, a non-matching non-empty credential
is rejected. -/
theorem c1_access_policy_amended_witness :
    validateAccessPassword (some "k") (some "k") = (true, true) ∧
    validateAccessPassword (some "x") (some "k") = (false, false) :=
  ⟨(c1_access_policy_amended (some "k") (some "k")).2.1 (by decide) (by decide) rfl,
   (c1_access_policy_amended (some "x") (some "k")).2.2.1 (by decide) (by decide) (by decide)⟩

/-- Claim C10 (confirmed): the evaluator treats empty strings as
absence — an empty configured secret makes every request
`(true, false)` whatever the credential, and an empty supplied
credential under any configured secret also yields `(true, false)`,
not a rejection. -/
theorem c10_empty_string_absence (p : Option String) (s : String) :
    validateAccessPassword p (some "") = (true, false) ∧
    validateAccessPassword (some "") (some s) = (true, false) := by
  constructor
  · simp [validateAccessPassword, strTruthy]
  · by_cases h : s = ""
    · subst h
      simp [validateAccessPassword, strTruthy]
    · simp [validateAccessPassword, strTruthy, h]

end AccessPolicy

section Router

/-- Claim C9 (counterexample): `POST /api/health` is not part of the
claim's listed surface (`OPTIONS` preflight, `POST /api/chat`,
`GET /api/health`), yet the router does not answer 404: the health
branch checks only the path, so the request reaches `healthOk` with
status 200. -/
theorem c9_counterexample :
    routeRequest "POST" "/api/health" = GatewayRoute.healthOk ∧
    ¬ GatewayRoute.healthOk = GatewayRoute.notFound ∧
    routeStatus GatewayRoute.healthOk = some 200 := by
  refine ⟨rfl, by decide, rfl⟩

/-- Claim C9 (amended): every request outside the surface the router
actually handles — `OPTIONS` on any path, `POST /api/chat`,
`POST /api/parse-url`, and `/api/health` with any method — is answered
with HTTP 404. -/
theorem c9_router_surface_amended (method path : String)
    (h1 : ¬ method = "OPTIONS")
    (h2 : ¬ (method = "POST" ∧ path = "/api/chat"))
    (h3 : ¬ (method = "POST" ∧ path = "/api/parse-url"))
    (h4 : ¬ path = "/api/health") :
    routeRequest method path = GatewayRoute.notFound ∧
    routeStatus (routeRequest method path) = some 404 := by
  have hroute : routeRequest method path = GatewayRoute.notFound := by
    unfold routeRequest
    rw [if_neg h1, if_neg (fun hc => h2 ⟨hc.2, hc.1⟩),
      if_neg (fun hc => h3 ⟨hc.2, hc.1⟩), if_neg h4]
  exact ⟨hroute, by rw [hroute]; rfl⟩

/-- Witness for C9 (amended): `GET /nope` is answered 404. -/
theorem c9_router_surface_amended_witness :
    routeRequest "GET" "/nope" = GatewayRoute.notFound ∧
    routeStatus (routeRequest "GET" "/nope") = some 404 :=
  c9_router_surface_amended "GET" "/nope" (by decide) (by decide) (by decide) (by decide)

end Router

section LineLevel

theorem translateLines_nil (extract : Json → Except String (Option Json)) :
    translateLines extract [] = [] := rfl

theorem translateLines_cons (extract : Json → Except String (Option Json))
    (l : String) (t : List String) :
    translateLines extract (l :: t) =
      processLine extract l.data ++ translateLines extract t := by
  simp [translateLines]

theorem translateLines_append (extract : Json → Except String (Option Json))
    (xs ys : List String) :
    translateLines extract (xs ++ ys) =
      translateLines extract xs ++ translateLines extract ys := by
  simp [translateLines]

theorem trim_nonempty_of_take (l : String)
    (h : (trimChars l.data).take 6 = "data: ".data) :
    (trimChars l.data).isEmpty = false := by
  cases hE : trimChars l.data with
  | nil => rw [hE] at h; simp at h
  | cons a as => rfl

theorem processLine_sentinel (extract : Json → Except String (Option Json))
    (l : String) (h : isSentinelLine l = true) :
    processLine extract l.data = [Event.done] := by
  unfold isSentinelLine at h
  rw [Bool.and_eq_true, decide_eq_true_eq, decide_eq_true_eq] at h
  obtain ⟨h1, h2⟩ := h
  have hne := trim_nonempty_of_take l h1
  simp only [processLine]
  rw [if_neg (by simp [hne]), if_neg (not_not_intro h1), if_pos h2]

theorem processLine_malformed (extract : Json → Except String (Option Json))
    (l : String) (h : isMalformedDataLine l = true) :
    processLine extract l.data = [] := by
  unfold isMalformedDataLine at h
  rw [Bool.and_eq_true, Bool.and_eq_true] at h
  obtain ⟨⟨h1, h2⟩, h3⟩ := h
  rw [decide_eq_true_eq] at h1
  have h2' : ¬ (trimChars l.data).drop 6 = "[DONE]".data := by
    simpa using h2
  have h3' : jsonParse ((trimChars l.data).drop 6) = none := by
    rwa [Option.isNone_iff_eq_none] at h3
  have hne := trim_nonempty_of_take l h1
  simp only [processLine]
  rw [if_neg (by simp [hne]), if_neg (not_not_intro h1), if_neg h2', h3']

theorem countDone_processLine (extract : Json → Except String (Option Json))
    (l : String) :
    countDone (processLine extract l.data) = (if isSentinelLine l then 1 else 0) := by
  by_cases hs : isSentinelLine l = true
  · rw [processLine_sentinel extract l hs, if_pos hs]
    rfl
  · rw [if_neg hs]
    unfold isSentinelLine at hs
    simp only [processLine]
    split
    · rfl
    · split
      · rfl
      · next hTake =>
        split
        · next hDone =>
          exfalso
          exact hs (by rw [Bool.and_eq_true, decide_eq_true_eq, decide_eq_true_eq]
                       exact ⟨not_not.mp hTake, hDone⟩)
        · split
          · rfl
          · split
            · rfl
            · rfl
            · split <;> rfl

end LineLevel

section SentinelAndNoise

/-- Claim C4 (counterexample): an upstream stream whose bytes contain
two sentinel lines makes the translator write the canonical `[DONE]`
twice — the "at most once per completed upstream stream" bound fails
on such a stream, precisely because the loop forwards the sentinel and
continues. -/
theorem c4_counterexample :
    runTranslator openAIExtract [("data: [DONE]\ndata: [DONE]\n").data] =
      [Event.done, Event.done] ∧
    ¬ countDone [Event.done, Event.done] ≤ 1 := by
  refine ⟨rfl, by decide⟩

/-- Claim C4 (amended): the translator writes exactly one canonical
`[DONE]` per upstream sentinel line (so at most one whenever the
completed upstream stream contains at most one sentinel line), and on
meeting the sentinel it forwards it and keeps processing the following
lines instead of terminating. -/
theorem c4_done_per_sentinel (extract : Json → Except String (Option Json))
    (ls a b : List String) (s : String) :
    countDone (translateLines extract ls) = ls.countP isSentinelLine ∧
    (ls.countP isSentinelLine ≤ 1 → countDone (translateLines extract ls) ≤ 1) ∧
    (isSentinelLine s = true →
      translateLines extract (a ++ s :: b) =
        translateLines extract a ++ Event.done :: translateLines extract b) := by
  have hcount : ∀ ms : List String,
      countDone (translateLines extract ms) = ms.countP isSentinelLine := by
    intro ms
    induction ms with
    | nil => rfl
    | cons l t ih =>
      rw [translateLines_cons, countDone, List.countP_append, List.countP_cons]
      have hl := countDone_processLine extract l
      rw [countDone] at hl ih
      rw [hl, ih]
      by_cases hs : isSentinelLine l = true
      · simp [hs]
        omega
      · simp [hs]
  refine ⟨hcount ls, ?_, ?_⟩
  · intro hle
    rw [hcount ls]
    exact hle
  · intro hs
    rw [translateLines_append, translateLines_cons, processLine_sentinel extract s hs]
    rfl

/-- Witness for C4 (amended): with a concrete sentinel line in front
of a further line, exactly one `[DONE]` is emitted there and the
following line is still processed. -/
theorem c4_done_per_sentinel_witness :
    translateLines openAIExtract ["data: [DONE]", "data: x"] =
      Event.done :: translateLines openAIExtract ["data: x"] :=
  (c4_done_per_sentinel openAIExtract [] [] ["data: x"] "data: [DONE]").2.2 rfl

/-- Claim C8 (confirmed): lines whose `data: ` payload is not valid
JSON are dropped silently — removing every malformed line from an
upstream line sequence leaves the translated canonical event sequence
unchanged, so malformed lines produce no event and do not disturb the
order or content of the valid ones; no error reaches the caller
(`processLine` is total, the thrown parse error is consumed by the
translator's per-line catch). -/
theorem c8_malformed_lines_dropped (extract : Json → Except String (Option Json))
    (ls : List String) :
    translateLines extract ls =
      translateLines extract (ls.filter (fun l => !(isMalformedDataLine l))) := by
  induction ls with
  | nil => rfl
  | cons l t ih =>
    rw [translateLines_cons, List.filter_cons]
    by_cases hm : isMalformedDataLine l = true
    · rw [processLine_malformed extract l hm, hm]
      simpa using ih
    · have hm' : isMalformedDataLine l = false := by simpa using hm
      rw [hm']
      simp only [Bool.not_false, if_true]
      rw [translateLines_cons, ih]

end SentinelAndNoise

section OpenAIStream

theorem jsonParse_done_sentinel : jsonParse "[DONE]".data = none := rfl

theorem processLine_oai_rep (l : String) (e : UpstreamEvent)
    (h : oaiRepresents l e = true) :
    processLine openAIExtract l.data = canonicalOf e := by
  cases e with
  | doneMark => exact processLine_sentinel openAIExtract l h
  | delta oc =>
    unfold oaiRepresents at h
    rw [Bool.and_eq_true, decide_eq_true_eq] at h
    obtain ⟨h1, h2⟩ := h
    have hne := trim_nonempty_of_take l h1
    rcases hjp : jsonParse ((trimChars l.data).drop 6) with _ | j
    · rw [hjp] at h2
      simp at h2
    · rw [hjp] at h2
      simp only [] at h2
      have hnd : ¬ (trimChars l.data).drop 6 = "[DONE]".data := by
        intro he
        rw [he, jsonParse_done_sentinel] at hjp
        cases hjp
      simp only [processLine]
      rw [if_neg (by simp [hne]), if_neg (not_not_intro h1), if_neg hnd, hjp]
      simp only []
      rcases hex : openAIExtract j with err | v
      · rw [hex] at h2
        simp at h2
      · rw [hex] at h2
        cases v with
        | none =>
          cases oc with
          | none => rfl
          | some c => simp at h2
        | some w =>
          cases w with
          | str s =>
            cases oc with
            | none => simp at h2
            | some c =>
              rw [decide_eq_true_eq] at h2
              subst h2
              by_cases hc : s = "" <;> simp [canonicalOf, jsTruthy, hc]
          | null => simp at h2
          | bool b => simp at h2
          | num q => simp at h2
          | arr xs => simp at h2
          | obj fs => simp at h2

/-- Claim C3 (confirmed): for every upstream OpenAI-shaped SSE line
sequence — each line either the sentinel or a `data: ` line whose JSON
payload's `choices[0].delta.content` is a given string or absent — the
translator emits exactly one canonical `{content}` event per delta
whose content is a non-empty string, in upstream order, with nothing
merged, reordered, batched or invented, and the sentinel in place. -/
theorem c3_openai_event_translation (lines : List String)
    (evs : List UpstreamEvent) (h : oaiStreamRep lines evs = true) :
    translateLines openAIExtract lines = evs.flatMap canonicalOf := by
  induction lines generalizing evs with
  | nil =>
    cases evs with
    | nil => rfl
    | cons e es => simp [oaiStreamRep] at h
  | cons l t ih =>
    cases evs with
    | nil => simp [oaiStreamRep] at h
    | cons e es =>
      unfold oaiStreamRep at h
      rw [Bool.and_eq_true] at h
      rw [translateLines_cons, processLine_oai_rep l e h.1, ih es h.2,
        List.flatMap_cons]

/-- Witness for C3: the spec's round-trip example. Upstream deltas
`"A"`, `"B"` then the sentinel yield exactly
`[{content:"A"}, {content:"B"}, DONE]`. -/
theorem c3_openai_event_translation_witness :
    translateLines openAIExtract
      ["data: \x7b\"choices\":[\x7b\"delta\":\x7b\"content\":\"A\"\x7d\x7d]\x7d",
       "data: \x7b\"choices\":[\x7b\"delta\":\x7b\"content\":\"B\"\x7d\x7d]\x7d",
       "data: [DONE]"] =
      [Event.content (Json.str "A"), Event.content (Json.str "B"), Event.done] :=
  (c3_openai_event_translation
    ["data: \x7b\"choices\":[\x7b\"delta\":\x7b\"content\":\"A\"\x7d\x7d]\x7d",
     "data: \x7b\"choices\":[\x7b\"delta\":\x7b\"content\":\"B\"\x7d\x7d]\x7d",
     "data: [DONE]"]
    [UpstreamEvent.delta (some "A"), UpstreamEvent.delta (some "B"),
     UpstreamEvent.doneMark] rfl).trans rfl

end OpenAIStream

section Chunking

theorem splitP_snd_no_newline (x : List Char) : '\n' ∉ (splitP x).2 := by
  induction x with
  | nil => simp [splitP]
  | cons c rest ih =>
    simp only [splitP]
    by_cases hc : c = '\n'
    · rw [if_pos hc]
      exact ih
    · rw [if_neg hc]
      cases hp : (splitP rest).1 with
      | nil =>
        simp only []
        intro hm
        rcases List.mem_cons.mp hm with h | h
        · exact hc h.symm
        · exact ih h
      | cons l ls =>
        simp only []
        exact ih

theorem splitP_of_no_newline (b : List Char) (h : '\n' ∉ b) : splitP b = ([], b) := by
  induction b with
  | nil => rfl
  | cons c rest ih =>
    have hc : ¬ c = '\n' := fun e => h (by rw [e]; exact List.mem_cons_self _ _)
    have hr : '\n' ∉ rest := fun hm => h (List.mem_cons_of_mem _ hm)
    simp only [splitP, ih hr]
    rw [if_neg hc]

theorem splitP_append_of_nil (a b : List Char) (h : (splitP b).1 = []) :
    splitP (a ++ b) = ((splitP a).1, (splitP a).2 ++ (splitP b).2) := by
  induction a with
  | nil =>
    rw [List.nil_append]
    cases hsp : splitP b with
    | mk fst snd =>
      rw [hsp] at h
      simp only at h
      subst h
      rfl
  | cons c a2 ih =>
    rw [List.cons_append]
    simp only [splitP, ih]
    by_cases hc : c = '\n'
    · rw [if_pos hc, if_pos hc]
    · rw [if_neg hc, if_neg hc]
      cases hp : (splitP a2).1 with
      | nil => simp
      | cons l ls => simp

theorem splitP_append_of_cons (a b : List Char) (l : List Char) (ls : List (List Char))
    (h : (splitP b).1 = l :: ls) :
    splitP (a ++ b) =
      ((splitP a).1 ++ ((splitP a).2 ++ l) :: ls, (splitP b).2) := by
  induction a with
  | nil =>
    rw [List.nil_append]
    cases hsp : splitP b with
    | mk fst snd =>
      rw [hsp] at h
      simp only at h
      subst h
      rfl
  | cons c a2 ih =>
    rw [List.cons_append]
    simp only [splitP, ih]
    by_cases hc : c = '\n'
    · rw [if_pos hc, if_pos hc]
      rfl
    · rw [if_neg hc, if_neg hc]
      cases hp : (splitP a2).1 with
      | nil => simp
      | cons l2 ls2 => simp

theorem runAux_join (extract : Json → Except String (Option Json))
    (chunks : List (List Char)) :
    ∀ buf : List Char, '\n' ∉ buf →
      runAux extract buf chunks =
        ((splitP (buf ++ chunks.flatten)).1).flatMap (processLine extract) := by
  induction chunks with
  | nil =>
    intro buf hbuf
    rw [List.flatten_nil, List.append_nil, splitP_of_no_newline buf hbuf]
    rfl
  | cons ch rest ih =>
    intro buf hbuf
    have hb2 : '\n' ∉ (splitP (buf ++ ch)).2 := splitP_snd_no_newline _
    have hb2eq : splitP ((splitP (buf ++ ch)).2) = ([], (splitP (buf ++ ch)).2) :=
      splitP_of_no_newline _ hb2
    rw [List.flatten_cons, ← List.append_assoc]
    simp only [runAux]
    rw [ih _ hb2]
    cases hr : (splitP rest.flatten).1 with
    | nil =>
      have e1 : (splitP ((buf ++ ch) ++ rest.flatten)).1 = (splitP (buf ++ ch)).1 := by
        rw [splitP_append_of_nil _ _ hr]
      have e2 : (splitP ((splitP (buf ++ ch)).2 ++ rest.flatten)).1 = [] := by
        rw [splitP_append_of_nil _ _ hr, hb2eq]
      rw [e1, e2, List.flatMap_nil, List.append_nil]
    | cons l ls =>
      have e1 : (splitP ((buf ++ ch) ++ rest.flatten)).1 =
          (splitP (buf ++ ch)).1 ++ ((splitP (buf ++ ch)).2 ++ l) :: ls := by
        rw [splitP_append_of_cons _ _ _ _ hr]
      have e2 : (splitP ((splitP (buf ++ ch)).2 ++ rest.flatten)).1 =
          ((splitP (buf ++ ch)).2 ++ l) :: ls := by
        rw [splitP_append_of_cons _ _ _ _ hr, hb2eq]
        simp
      rw [e1, e2, List.flatMap_append]

/-- Claim C2 (confirmed): the stream translation depends only on the
concatenation of the upstream chunks, never on where the chunk
boundaries fall — any two chunkings of the same character sequence
(one byte at a time, all at once, or anything in between; the
streaming text decoder makes byte and character boundaries
interchangeable) produce the identical canonical event sequence, for
either provider's per-line accessor. -/
theorem c2_chunk_boundary_invariance (extract : Json → Except String (Option Json))
    (chunks1 chunks2 : List (List Char)) (h : chunks1.flatten = chunks2.flatten) :
    runTranslator extract chunks1 = runTranslator extract chunks2 := by
  unfold runTranslator
  rw [runAux_join extract chunks1 [] (by simp),
    runAux_join extract chunks2 [] (by simp), h]

/-- Witness for C2: one byte at a time versus all at once on a
concrete sentinel stream, and the resulting canonical events. -/
theorem c2_chunk_boundary_invariance_witness :
    runTranslator openAIExtract
        (("data: [DONE]\n").data.map (fun c => [c])) =
      runTranslator openAIExtract [("data: [DONE]\n").data] ∧
    runTranslator openAIExtract [("data: [DONE]\n").data] = [Event.done] :=
  ⟨c2_chunk_boundary_invariance openAIExtract _ _ (by rfl), rfl⟩

end Chunking

section AnthropicNormalizer

/-- Claim C5 (counterexample): `data:text/plain;base64,AAAA` is a
base64 `data:` URI in the spec's wording (media type `text/plain`,
payload `AAAA`), yet the normalizer degrades it to a text placeholder
instead of an image block: the source's pattern requires an `image/*`
media type. -/
theorem c5_counterexample :
    specBase64DataUriParts "data:text/plain;base64,AAAA" = some ("text/plain", "AAAA") ∧
    convertContentPartsToAnthropic [ContentPart.image_url (some "data:text/plain;base64,AAAA")] =
      [AnthropicContentPart.text "[Image URL: data:text/plain;base64,AAAA]"] ∧
    ¬ [AnthropicContentPart.text "[Image URL: data:text/plain;base64,AAAA]"] =
      [AnthropicContentPart.image "text/plain" "AAAA"] := by
  refine ⟨rfl, rfl, by decide⟩

/-- Claim C5 (amended): with "base64 `data:` URI" read as the source's
pattern — an `image/*` media type, `;base64,` and a non-empty payload —
the normalization is per-part and order-preserving; a `Text` part
becomes a text block (dropped when empty); a matching image data URI
becomes a base64 image block with media type and payload from the URI;
any other non-empty URL (plain remote URLs and non-image or malformed
`data:` URIs alike) becomes the `[Image URL: <url>]` text placeholder
and never an image block; and the output never contains an empty text
block. -/
theorem c5_anthropic_parts_amended (parts ps : List ContentPart) (p : ContentPart)
    (t u m d : String) :
    (convertContentPartsToAnthropic (p :: ps) =
      convertContentPartsToAnthropic [p] ++ convertContentPartsToAnthropic ps) ∧
    (convertContentPartsToAnthropic [ContentPart.text (some t)] =
      if t = "" then [] else [AnthropicContentPart.text t]) ∧
    (dataUriMatch u = some (m, d) →
      convertContentPartsToAnthropic [ContentPart.image_url (some u)] =
        [AnthropicContentPart.image m d]) ∧
    (dataUriMatch u = none → ¬ u = "" →
      convertContentPartsToAnthropic [ContentPart.image_url (some u)] =
        [AnthropicContentPart.text ("[Image URL: " ++ u ++ "]")]) ∧
    (∀ ap ∈ convertContentPartsToAnthropic parts, anthropicKeep ap = true) := by
  refine ⟨?_, ?_, ?_, ?_, ?_⟩
  · cases hk : anthropicKeep (anthropicPartOf p) <;>
      simp [convertContentPartsToAnthropic, List.filter_cons, hk]
  · by_cases ht : t = "" <;>
      simp [convertContentPartsToAnthropic, anthropicPartOf, anthropicKeep, ht]
  · intro h
    have hne : ¬ u = "" := by
      intro e
      subst e
      cases h
    simp [convertContentPartsToAnthropic, anthropicPartOf, hne, h, anthropicKeep]
  · intro h hne
    have hkeep : ¬ ("[Image URL: " ++ u ++ "]") = "" := by
      intro e
      have hlen := congrArg String.length e
      simp [String.length_append] at hlen
      exact absurd hlen.2 (by decide)
    simp [convertContentPartsToAnthropic, anthropicPartOf, hne, h, anthropicKeep, hkeep]
  · intro ap hap
    exact (List.mem_filter.mp hap).2

/-- Witness for C5 (amended): a PNG base64 data URI becomes the
expected image block. -/
theorem c5_anthropic_parts_amended_witness :
    convertContentPartsToAnthropic [ContentPart.image_url (some "data:image/png;base64,AAAA")] =
      [AnthropicContentPart.image "image/png" "AAAA"] :=
  (c5_anthropic_parts_amended [] [] (ContentPart.text none) ""
    "data:image/png;base64,AAAA" "image/png" "AAAA").2.2.1 rfl

theorem anthropicMessagesOf_no_system (msgs : List Message) :
    (anthropicMessagesOf msgs).all (fun am => !(decide (am.role = Role.system))) = true := by
  rw [List.all_eq_true]
  intro am ham
  rcases List.mem_map.mp ham with ⟨m0, hm0, rfl⟩
  have h2 := (List.mem_filter.mp hm0).2
  simpa [toAnthMessage] using h2

/-- Claim C6 (confirmed): on both the non-streaming and the streaming
Anthropic path the outgoing `messages` array contains no system-role
entries, and whenever a system message is present in the input (the
first one found, with textual content) its text is carried in the
top-level `system` field. -/
theorem c6_anthropic_system_extraction (msgs : List Message) (m : Message) (s : String) :
    (callAnthropicBody msgs).messages.all (fun am => !(decide (am.role = Role.system))) = true ∧
    (streamAnthropicBody msgs).messages.all (fun am => !(decide (am.role = Role.system))) = true ∧
    (msgs.find? (fun mm => decide (mm.role = Role.system)) = some m →
      m.content = MContent.str s →
      (callAnthropicBody msgs).system = s ∧ (streamAnthropicBody msgs).system = s) := by
  refine ⟨anthropicMessagesOf_no_system msgs, anthropicMessagesOf_no_system msgs, ?_⟩
  intro hfind hstr
  have hsys : anthropicSystemOf msgs = s := by
    unfold anthropicSystemOf
    rw [hfind]
    simp only []
    rw [hstr]
  exact ⟨hsys, hsys⟩

/-- Witness for C6: a concrete request with one system message and one
user message. -/
theorem c6_anthropic_system_extraction_witness :
    (callAnthropicBody
        [{ role := Role.system, content := MContent.str "sys" },
         { role := Role.user, content := MContent.str "hi" }]).system = "sys" ∧
    (streamAnthropicBody
        [{ role := Role.system, content := MContent.str "sys" },
         { role := Role.user, content := MContent.str "hi" }]).system = "sys" :=
  (c6_anthropic_system_extraction
    [{ role := Role.system, content := MContent.str "sys" },
     { role := Role.user, content := MContent.str "hi" }]
    { role := Role.system, content := MContent.str "sys" } "sys").2.2 rfl rfl

end AnthropicNormalizer

section NonStreamingCalls

/-- Claim C7 (counterexample): a 2xx upstream response whose JSON body
`{}` lacks the `choices` array makes `callOpenAI` throw a `TypeError`
(`data.choices` is not optional-chained before `[0]`), instead of
returning the empty string for the absent field. -/
theorem c7_counterexample :
    callOpenAIResult { ok := true, body := "\x7b\x7d" } = Except.error "TypeError" ∧
    ¬ callOpenAIResult { ok := true, body := "\x7b\x7d" } = Except.ok (Json.str "") := by
  refine ⟨rfl, ?_⟩
  intro h
  have h2 : (Except.error "TypeError" : Except String Json) = Except.ok (Json.str "") := h
  cases h2

/-- Claim C7 (amended): a non-2xx upstream status fails with an error
carrying the upstream body; on 2xx the reply is extracted from
`choices[0].message.content` (OpenAI) or `content[0].text`
(Anthropic), and the empty string is returned when the nested field is
absent provided the optional-chained access path itself evaluates
without a `TypeError` — when the top-level `choices`/`content`
property is missing or null, the call fails instead. -/
theorem c7_nonstreaming_extraction_amended (resp : UpstreamResponse) (j : Json) (s : String) :
    (resp.ok = false →
      callOpenAIResult resp = Except.error ("OpenAI API error: " ++ resp.body) ∧
      callAnthropicResult resp = Except.error ("Anthropic API error: " ++ resp.body)) ∧
    (resp.ok = true → jsonParse resp.body.data = some j →
      openAIRespContent j = Except.ok (some (Json.str s)) →
      callOpenAIResult resp = Except.ok (Json.str s)) ∧
    (resp.ok = true → jsonParse resp.body.data = some j →
      openAIRespContent j = Except.ok none →
      callOpenAIResult resp = Except.ok (Json.str "")) ∧
    (resp.ok = true → jsonParse resp.body.data = some j →
      anthropicRespContent j = Except.ok (some (Json.str s)) →
      callAnthropicResult resp = Except.ok (Json.str s)) ∧
    (resp.ok = true → jsonParse resp.body.data = some j →
      anthropicRespContent j = Except.ok none →
      callAnthropicResult resp = Except.ok (Json.str "")) := by
  refine ⟨?_, ?_, ?_, ?_, ?_⟩
  · intro hok
    constructor <;> simp [callOpenAIResult, callAnthropicResult, hok]
  · intro hok hp hx
    by_cases hs : s = "" <;>
      simp [callOpenAIResult, hok, hp, hx, orEmptyString, jsTruthy, hs]
  · intro hok hp hx
    simp [callOpenAIResult, hok, hp, hx, orEmptyString]
  · intro hok hp hx
    by_cases hs : s = "" <;>
      simp [callAnthropicResult, hok, hp, hx, orEmptyString, jsTruthy, hs]
  · intro hok hp hx
    simp [callAnthropicResult, hok, hp, hx, orEmptyString]

/-- Witness for C7 (amended): a concrete 2xx OpenAI-shaped envelope
carrying `"hello"` is extracted to `"hello"`. -/
theorem c7_nonstreaming_extraction_amended_witness :
    callOpenAIResult
        { ok := true, body := "\x7b\"choices\":[\x7b\"message\":\x7b\"content\":\"hello\"\x7d\x7d]\x7d" } =
      Except.ok (Json.str "hello") :=
  (c7_nonstreaming_extraction_amended
    { ok := true, body := "\x7b\"choices\":[\x7b\"message\":\x7b\"content\":\"hello\"\x7d\x7d]\x7d" }
    (Json.obj [("choices",
      Json.arr [Json.obj [("message", Json.obj [("content", Json.str "hello")])]])])
    "hello").2.1 rfl rfl rfl

end NonStreamingCalls
